import Mathlib

/-!
Verification development for the oal compiler front-end.

The definitions below embed the data model and the operations of the
repository: the tag-based structural type check
(src/oal-compiler/src/typecheck.rs), the token list, interner and
tokenizer (src/oal-model/src/lexicon.rs), the OpenAPI schema emitter
(src/oal-codegen/src/lib.rs), and a model of the compilation pipeline
(tagging, constraining, unification, substitution, reduction and the
free-variable scan) used by the reduction test
(src/oal-compiler/src/reduction_tests.rs).
-/

set_option maxRecDepth 4000

/-- Primitive types of the language: `num`, `str`, `bool`. -/
inductive Primitive where
  | num
  | str
  | bool
deriving DecidableEq, Repr

/-- The variadic operators: `&` (join), `|` (sum), `~` (any). -/
inductive Operator where
  | join
  | sum
  | any
deriving DecidableEq, Repr

/-- HTTP methods recognized by the language. -/
inductive Method where
  | get
  | put
  | post
  | patch
  | delete
  | options
  | head
deriving DecidableEq, Repr

/-- Type tags attached to every AST node.  `var n` is a fresh inference
variable issued during tagging. -/
inductive Tag where
  | primitive
  | uri
  | object
  | array
  | content
  | relation
  | var (n : Nat)
deriving DecidableEq, Repr

/-- Modelled from the spec: `is_schema` (defined in the tag module, which is
not part of the provided sources) holds for the schema kinds
Primitive, Uri, Object, Array (spec section 3 and glossary). -/
def Tag.is_schema : Tag → Bool
  | .primitive => true
  | .uri => true
  | .object => true
  | .array => true
  | _ => false

/-- Error kinds of the compiler (spec section 7 and the errors module). -/
inductive ErrKind where
  | lexError
  | parseError
  | invalidTypes
  | identifierNotInScope
  | duplicateRelation
  | invalidArity
  | unknown
deriving DecidableEq, Repr

/-- A compiler error: a kind plus a message (spans are not modelled). -/
structure Err where
  kind : ErrKind
  msg : String
deriving DecidableEq, Repr

mutual

/-- A typed expression: a node of the abstract syntax tree carrying a `Tag`
(spec section 3: every AST node carries a tag). -/
inductive TExpr where
  | mk (tag : Tag) (inner : Expr)

/-- The expression kinds of the abstract syntax (spec section 3). -/
inductive Expr where
  | prim (p : Primitive)
  | uri (spec : List UriSeg)
  | obj (props : List Property)
  | arr (item : TExpr)
  | op (o : Operator) (exprs : List TExpr)
  | rel (u : TExpr) (xfers : List (Method × Option Transfer))
  | content (schema : TExpr) (desc : Option String)
  | var (name : String)
  | binding (name : String)
  | lam (bindings : List TExpr) (body : TExpr)
  | app (head : TExpr) (args : List TExpr)

/-- A URI segment: a literal or a variable property. -/
inductive UriSeg where
  | literal (s : String)
  | varSeg (p : Property)

/-- A named property with its value expression. -/
inductive Property where
  | mk (name : String) (val : TExpr)

/-- A transfer: optional request content and a response content, both typed
expressions whose tag must be `Tag.content`. -/
inductive Transfer where
  | mk (domain : Option TExpr) (range : TExpr)

end

/-- The tag of a typed expression (`Tagged::unwrap_tag`). -/
def unwrap_tag : TExpr → Tag
  | .mk t _ => t

/-- The inner expression of a typed node. -/
def TExpr.inner : TExpr → Expr
  | .mk _ e => e

/-- The domain of a transfer. -/
def Transfer.domain : Transfer → Option TExpr
  | .mk d _ => d

/-- The range of a transfer. -/
def Transfer.range : Transfer → TExpr
  | .mk _ r => r

/-- The value expression of a property. -/
def Property.val : Property → TExpr
  | .mk _ v => v

/-- The name of a property. -/
def Property.name : Property → String
  | .mk n _ => n

/-- A top-level statement: a declaration binding a name to an expression. -/
inductive Stmt where
  | decl (name : String) (expr : TExpr)

/-- A reference to a node handed to a visitor pass: an expression node or
any other kind of node. -/
inductive NodeRef where
  | expr (e : TExpr)
  | stmt (s : Stmt)

/-- `VariadicOp::type_check` from src/oal-compiler/src/typecheck.rs:
a join requires every operand tag to be `Object`; a sum or any requires
every operand tag to be a schema kind. -/
def op_type_check (o : Operator) (exprs : List TExpr) : Except Err Unit :=
  match o with
  | .join =>
      if exprs.all (fun e => unwrap_tag e == Tag.object) then .ok ()
      else .error ⟨.invalidTypes, "ill-formed join"⟩
  | .any | .sum =>
      if exprs.all (fun e => (unwrap_tag e).is_schema) then .ok ()
      else .error ⟨.invalidTypes, "ill-formed alternative"⟩

/-- `Relation::type_check` from src/oal-compiler/src/typecheck.rs. -/
def rel_type_check (u : TExpr) (xfers : List (Method × Option Transfer)) :
    Except Err Unit :=
  let uri_check := unwrap_tag u == Tag.uri
  let xfers_check := xfers.all fun mt =>
    match mt.2 with
    | some t =>
        (match t.domain with
         | some d => unwrap_tag d == Tag.content
         | none => true) && (unwrap_tag t.range == Tag.content)
    | none => true
  if uri_check && xfers_check then .ok ()
  else .error ⟨.invalidTypes, "ill-formed relation"⟩

/-- `Uri::type_check` from src/oal-compiler/src/typecheck.rs: every variable
segment must hold a value tagged `Primitive`. -/
def uri_type_check (spec : List UriSeg) : Except Err Unit :=
  if spec.all (fun s =>
      match s with
      | .varSeg p => unwrap_tag p.val == Tag.primitive
      | .literal _ => true) then .ok ()
  else .error ⟨.invalidTypes, "ill-formed URI"⟩

/-- `Array::type_check` from src/oal-compiler/src/typecheck.rs. -/
def array_type_check (item : TExpr) : Except Err Unit :=
  if (unwrap_tag item).is_schema then .ok ()
  else .error ⟨.invalidTypes, "ill-formed array"⟩

/-- `Object::type_check` from src/oal-compiler/src/typecheck.rs. -/
def object_type_check (props : List Property) : Except Err Unit :=
  if props.all (fun p => (unwrap_tag p.val).is_schema) then .ok ()
  else .error ⟨.invalidTypes, "ill-formed object"⟩

/-- A lexical environment: a stack of frames mapping names to expressions. -/
def Env := List (List (String × TExpr))

/-- The `type_check` pass entry point from src/oal-compiler/src/typecheck.rs.
The Rust function takes the accumulator and environment by mutable
reference and leaves both untouched; the embedding passes them through. -/
def type_check (acc : Unit) (env : Env) (node : NodeRef) :
    Unit × Env × Except Err Unit :=
  (acc, env,
    match node with
    | .expr (.mk _ e) =>
      match e with
      | .op o exprs => op_type_check o exprs
      | .rel u xfers => rel_type_check u xfers
      | .uri s => uri_type_check s
      | .arr item => array_type_check item
      | .obj props => object_type_check props
      | _ => .ok ()
    | _ => .ok ())

/-- Lookup in a single frame: the first (most recent) binding wins. -/
def lookupFrame (f : List (String × TExpr)) (n : String) : Option TExpr :=
  (f.find? (fun p => p.1 == n)).map (fun p => p.2)

/-- Modelled from the spec: environment lookup walks frames from innermost
to outermost (spec section 3, Environment). -/
def lookupEnv : Env → String → Option TExpr
  | [], _ => none
  | f :: rest, n =>
    match lookupFrame f n with
    | some v => some v
    | none => lookupEnv rest n

/-- Modelled from the spec: binding a name in the innermost frame; a later
binding shadows an earlier one (spec section 4.E). -/
def bindEnv : Env → String → TExpr → Env
  | [], n, v => [[(n, v)]]
  | f :: rest, n, v => ((n, v) :: f) :: rest

/-- The names of the binding expressions of a lambda, paired with the
binding expressions themselves, forming a new frame. -/
def lamFrame (bs : List TExpr) : List (String × TExpr) :=
  bs.filterMap (fun b =>
    match b with
    | .mk _ (.binding n) => some (n, b)
    | _ => none)

/-- Modelled from the spec: the tagging subphase (spec section 4.F.1,
module inference, not part of the provided sources).  Every node receives
a fresh `var` tag from a monotonic counter; children are visited in
surface order.  The first argument is recursion fuel. -/
def tag_type : Nat → Nat → TExpr → Except Err (TExpr × Nat)
  | 0, _, _ => .error ⟨.unknown, "recursion limit"⟩
  | fuel + 1, c, .mk _ e =>
    match e with
    | .prim p => .ok (.mk (.var c) (.prim p), c + 1)
    | .var n => .ok (.mk (.var c) (.var n), c + 1)
    | .binding n => .ok (.mk (.var c) (.binding n), c + 1)
    | .uri segs => do
        let r ← segs.foldlM
          (fun (acc : List UriSeg × Nat) s =>
            match s with
            | .literal l => .ok (acc.1 ++ [UriSeg.literal l], acc.2)
            | .varSeg (.mk n v) => do
                let (v2, c2) ← tag_type fuel acc.2 v
                .ok (acc.1 ++ [UriSeg.varSeg (.mk n v2)], c2))
          ([], c + 1)
        .ok (.mk (.var c) (.uri r.1), r.2)
    | .obj props => do
        let r ← props.foldlM
          (fun (acc : List Property × Nat) p =>
            match p with
            | .mk n v => do
                let (v2, c2) ← tag_type fuel acc.2 v
                .ok (acc.1 ++ [Property.mk n v2], c2))
          ([], c + 1)
        .ok (.mk (.var c) (.obj r.1), r.2)
    | .arr item => do
        let (i2, c2) ← tag_type fuel (c + 1) item
        .ok (.mk (.var c) (.arr i2), c2)
    | .op o es => do
        let r ← es.foldlM
          (fun (acc : List TExpr × Nat) x => do
            let (x2, c2) ← tag_type fuel acc.2 x
            .ok (acc.1 ++ [x2], c2))
          ([], c + 1)
        .ok (.mk (.var c) (.op o r.1), r.2)
    | .rel u xfers => do
        let (u2, c2) ← tag_type fuel (c + 1) u
        let r ← xfers.foldlM
          (fun (acc : List (Method × Option Transfer) × Nat) mt =>
            match mt with
            | (m, none) => .ok (acc.1 ++ [(m, none)], acc.2)
            | (m, some (.mk dom rng)) => do
                let (dom2, c3) ←
                  match dom with
                  | none => .ok ((none : Option TExpr), acc.2)
                  | some d => do
                      let (d2, c3) ← tag_type fuel acc.2 d
                      .ok (some d2, c3)
                let (rng2, c4) ← tag_type fuel c3 rng
                .ok (acc.1 ++ [(m, some (Transfer.mk dom2 rng2))], c4))
          ([], c2)
        .ok (.mk (.var c) (.rel u2 r.1), r.2)
    | .content sch d => do
        let (s2, c2) ← tag_type fuel (c + 1) sch
        .ok (.mk (.var c) (.content s2 d), c2)
    | .lam bs body => do
        let r ← bs.foldlM
          (fun (acc : List TExpr × Nat) b => do
            let (b2, c2) ← tag_type fuel acc.2 b
            .ok (acc.1 ++ [b2], c2))
          ([], c + 1)
        let (body2, c3) ← tag_type fuel r.2 body
        .ok (.mk (.var c) (.lam r.1 body2), c3)
    | .app h args => do
        let (h2, c2) ← tag_type fuel (c + 1) h
        let r ← args.foldlM
          (fun (acc : List TExpr × Nat) x => do
            let (x2, c3) ← tag_type fuel acc.2 x
            .ok (acc.1 ++ [x2], c3))
          ([], c2)
        .ok (.mk (.var c) (.app h2 r.1), r.2)

/-- Modelled from the spec: tagging a whole program, statement by
statement, threading the fresh-variable counter. -/
def tagProg (fuel : Nat) (stmts : List Stmt) : Except Err (List Stmt) := do
  let r ← stmts.foldlM
    (fun (acc : List Stmt × Nat) st =>
      match st with
      | .decl n e => do
          let (e2, c2) ← tag_type fuel acc.2 e
          .ok (acc.1 ++ [Stmt.decl n e2], c2))
    ([], 0)
  .ok r.1

/-- Modelled from the spec: the constraining subphase (spec section 4.F.2,
module inference, not part of the provided sources).  A post-order walk
emits the tag equalities listed in the spec; the is-schema conditions are
re-verified by the post-reduction type check instead, since the
constraint set holds only pairs of tags. -/
def constrain : Nat → Env → TExpr → Except Err (List (Tag × Tag))
  | 0, _, _ => .error ⟨.unknown, "recursion limit"⟩
  | fuel + 1, env, .mk t e =>
    match e with
    | .prim _ => .ok [(t, Tag.primitive)]
    | .uri segs => do
        let cs ← segs.foldlM
          (fun (acc : List (Tag × Tag)) s =>
            match s with
            | .literal _ => .ok acc
            | .varSeg (.mk _ v) => do
                let c ← constrain fuel env v
                .ok (acc ++ c ++ [(unwrap_tag v, Tag.primitive)]))
          []
        .ok (cs ++ [(t, Tag.uri)])
    | .obj props => do
        let cs ← props.foldlM
          (fun (acc : List (Tag × Tag)) p =>
            match p with
            | .mk _ v => do
                let c ← constrain fuel env v
                .ok (acc ++ c))
          []
        .ok (cs ++ [(t, Tag.object)])
    | .arr item => do
        let cs ← constrain fuel env item
        .ok (cs ++ [(t, Tag.array)])
    | .op o es => do
        let cs ← es.foldlM
          (fun (acc : List (Tag × Tag)) x => do
            let c ← constrain fuel env x
            .ok (acc ++ c))
          []
        match o with
        | .join =>
            .ok (cs ++ es.map (fun x => (unwrap_tag x, Tag.object)) ++
              [(t, Tag.object)])
        | .sum | .any =>
            match es with
            | [] => .ok cs
            | x :: rest =>
                .ok (cs ++ rest.map (fun y => (unwrap_tag x, unwrap_tag y)) ++
                  [(t, unwrap_tag x)])
    | .rel u xfers => do
        let cs ← constrain fuel env u
        let cs2 ← xfers.foldlM
          (fun (acc : List (Tag × Tag)) mt =>
            match mt.2 with
            | none => .ok acc
            | some (.mk dom rng) => do
                let cd ←
                  match dom with
                  | none => .ok ([] : List (Tag × Tag))
                  | some d => do
                      let c ← constrain fuel env d
                      .ok (c ++ [(unwrap_tag d, Tag.content)])
                let cr ← constrain fuel env rng
                .ok (acc ++ cd ++ cr ++ [(unwrap_tag rng, Tag.content)]))
          []
        .ok (cs ++ [(unwrap_tag u, Tag.uri)] ++ cs2 ++ [(t, Tag.relation)])
    | .content sch _ => do
        let cs ← constrain fuel env sch
        .ok (cs ++ [(t, Tag.content)])
    | .var n =>
        match lookupEnv env n with
        | none => .error ⟨.identifierNotInScope, ""⟩
        | some v => .ok [(t, unwrap_tag v)]
    | .binding _ => .ok []
    | .lam bs body => do
        let cs ← constrain fuel (lamFrame bs :: env) body
        .ok (cs ++ [(t, unwrap_tag body)])
    | .app h args => do
        let csh ← constrain fuel env h
        let csa ← args.foldlM
          (fun (acc : List (Tag × Tag)) x => do
            let c ← constrain fuel env x
            .ok (acc ++ c))
          []
        let bodyOf : Option TExpr :=
          match h with
          | .mk _ (.lam _ body) => some body
          | .mk _ (.var n) =>
            match lookupEnv env n with
            | some (.mk _ (.lam _ body)) => some body
            | _ => none
          | _ => none
        match bodyOf with
        | some body => .ok (csh ++ csa ++ [(t, unwrap_tag body)])
        | none => .error ⟨.invalidTypes, "not a function"⟩

/-- Modelled from the spec: constraining a whole program; declarations are
added to the environment sequentially, so later declarations shadow
earlier ones (spec section 4.E). -/
def constrainProg (fuel : Nat) (stmts : List Stmt) :
    Except Err (List (Tag × Tag)) :=
  do
  let r ← stmts.foldlM
    (fun (acc : List (Tag × Tag) × Env) st =>
      match st with
      | .decl n e => do
          let cs ← constrain fuel acc.2 e
          .ok (acc.1 ++ cs, bindEnv acc.2 n e))
    ([], [[]])
  .ok r.1

/-- A substitution: a mapping from inference-variable ids to tags. -/
def Subst := List (Nat × Tag)

/-- Resolve a tag through a substitution until it is no longer a bound
variable (bounded by fuel; chains are finite in practice). -/
def walkTag : Nat → Subst → Tag → Tag
  | 0, _, t => t
  | fuel + 1, s, .var v =>
    match s.find? (fun p => p.1 == v) with
    | some p => walkTag fuel s p.2
    | none => .var v
  | _ + 1, _, t => t

/-- Modelled from the spec: unify one pair of tags (spec section 4.G).
Equal resolved tags succeed; a variable is bound to the other side;
mismatched concrete tags fail with `InvalidTypes`. -/
def unify_pair (s : Subst) (ab : Tag × Tag) : Except Err Subst :=
  let a := walkTag 64 s ab.1
  let b := walkTag 64 s ab.2
  if a = b then .ok s
  else
    match a, b with
    | .var v, tb => .ok ((v, tb) :: s)
    | ta, .var v => .ok ((v, ta) :: s)
    | _, _ => .error ⟨.invalidTypes, "type mismatch"⟩

/-- Modelled from the spec: unification folds the constraint worklist into
a substitution (spec section 4.G). -/
def unify (cs : List (Tag × Tag)) : Except Err Subst :=
  cs.foldlM unify_pair []

/-- Modelled from the spec: the substitution pass replaces every tag by its
closure under the substitution (spec section 4.H). -/
def substitute : Nat → Subst → TExpr → Except Err TExpr
  | 0, _, _ => .error ⟨.unknown, "recursion limit"⟩
  | fuel + 1, s, .mk t e =>
    let t2 := walkTag 64 s t
    match e with
    | .prim p => .ok (.mk t2 (.prim p))
    | .var n => .ok (.mk t2 (.var n))
    | .binding n => .ok (.mk t2 (.binding n))
    | .uri segs => do
        let segs2 ← segs.mapM (fun sg =>
          match sg with
          | .literal l => .ok (UriSeg.literal l)
          | .varSeg (.mk n v) => do
              let v2 ← substitute fuel s v
              .ok (UriSeg.varSeg (.mk n v2)))
        .ok (.mk t2 (.uri segs2))
    | .obj props => do
        let props2 ← props.mapM (fun p =>
          match p with
          | .mk n v => do
              let v2 ← substitute fuel s v
              .ok (Property.mk n v2))
        .ok (.mk t2 (.obj props2))
    | .arr item => do
        let i2 ← substitute fuel s item
        .ok (.mk t2 (.arr i2))
    | .op o es => do
        let es2 ← es.mapM (substitute fuel s)
        .ok (.mk t2 (.op o es2))
    | .rel u xfers => do
        let u2 ← substitute fuel s u
        let xfers2 ← xfers.mapM (fun mt =>
          match mt with
          | (m, none) => .ok (m, (none : Option Transfer))
          | (m, some (.mk dom rng)) => do
              let dom2 ←
                match dom with
                | none => .ok (none : Option TExpr)
                | some d => do
                    let d2 ← substitute fuel s d
                    .ok (some d2)
              let rng2 ← substitute fuel s rng
              .ok (m, some (Transfer.mk dom2 rng2)))
        .ok (.mk t2 (.rel u2 xfers2))
    | .content sch d => do
        let s2 ← substitute fuel s sch
        .ok (.mk t2 (.content s2 d))
    | .lam bs body => do
        let bs2 ← bs.mapM (substitute fuel s)
        let body2 ← substitute fuel s body
        .ok (.mk t2 (.lam bs2 body2))
    | .app h args => do
        let h2 ← substitute fuel s h
        let args2 ← args.mapM (substitute fuel s)
        .ok (.mk t2 (.app h2 args2))

/-- Modelled from the spec: applying the substitution to a whole program. -/
def substProg (fuel : Nat) (s : Subst) (stmts : List Stmt) :
    Except Err (List Stmt) :=
  stmts.mapM (fun st =>
    match st with
    | .decl n e => do
        let e2 ← substitute fuel s e
        .ok (Stmt.decl n e2))

/-- Modelled from the spec: the syntax-directed reduction (spec section
4.I, module reduction, not part of the provided sources).  Variables are
replaced by their looked-up non-binding values, applications push a frame
binding parameters to arguments, associative operators are flattened and
singleton operations collapse. -/
def reduce : Nat → Env → TExpr → Except Err TExpr
  | 0, _, _ => .error ⟨.unknown, "recursion limit"⟩
  | fuel + 1, env, .mk t e =>
    match e with
    | .prim p => .ok (.mk t (.prim p))
    | .binding n => .ok (.mk t (.binding n))
    | .var n =>
        match lookupEnv env n with
        | some (.mk tv (.binding nv)) =>
            let _ := (tv, nv)
            .ok (.mk t (.var n))
        | some v => .ok v
        | none => .ok (.mk t (.var n))
    | .uri segs => do
        let segs2 ← segs.mapM (fun sg =>
          match sg with
          | .literal l => .ok (UriSeg.literal l)
          | .varSeg (.mk n v) => do
              let v2 ← reduce fuel env v
              .ok (UriSeg.varSeg (.mk n v2)))
        .ok (.mk t (.uri segs2))
    | .obj props => do
        let props2 ← props.mapM (fun p =>
          match p with
          | .mk n v => do
              let v2 ← reduce fuel env v
              .ok (Property.mk n v2))
        .ok (.mk t (.obj props2))
    | .arr item => do
        let i2 ← reduce fuel env item
        .ok (.mk t (.arr i2))
    | .op o es => do
        let es2 ← es.mapM (reduce fuel env)
        let flat := es2.foldr
          (fun x acc =>
            match x with
            | .mk _ (.op o2 xs) => if o2 = o then xs ++ acc else x :: acc
            | _ => x :: acc)
          []
        match flat with
        | [x] => .ok x
        | xs => .ok (.mk t (.op o xs))
    | .rel u xfers => do
        let u2 ← reduce fuel env u
        let xfers2 ← xfers.mapM (fun mt =>
          match mt with
          | (m, none) => .ok (m, (none : Option Transfer))
          | (m, some (.mk dom rng)) => do
              let dom2 ←
                match dom with
                | none => .ok (none : Option TExpr)
                | some d => do
                    let d2 ← reduce fuel env d
                    .ok (some d2)
              let rng2 ← reduce fuel env rng
              .ok (m, some (Transfer.mk dom2 rng2)))
        .ok (.mk t (.rel u2 xfers2))
    | .content sch d => do
        let s2 ← reduce fuel env sch
        .ok (.mk t (.content s2 d))
    | .lam bs body => do
        let body2 ← reduce fuel (lamFrame bs :: env) body
        .ok (.mk t (.lam bs body2))
    | .app h args => do
        let h2 ← reduce fuel env h
        let args2 ← args.mapM (reduce fuel env)
        match h2 with
        | .mk _ (.lam bs body) =>
            if bs.length = args2.length then
              let names := bs.filterMap (fun b =>
                match b with
                | .mk _ (.binding n) => some n
                | _ => none)
              reduce fuel (names.zip args2 :: env) body
            else .error ⟨.invalidArity, ""⟩
        | _ => .error ⟨.invalidTypes, "not a function"⟩

/-- Modelled from the spec: reducing a whole program; each declaration is
reduced in the current environment, then bound (spec section 4.I). -/
def reduceProg (fuel : Nat) (stmts : List Stmt) : Except Err (List Stmt) :=
  do
  let r ← stmts.foldlM
    (fun (acc : List Stmt × Env) st =>
      match st with
      | .decl n e => do
          let e2 ← reduce fuel acc.2 e
          .ok (acc.1 ++ [Stmt.decl n e2], bindEnv acc.2 n e2))
    ([], [[]])
  .ok r.1

/-- The free-variable check of src/oal-compiler/src/reduction_tests.rs
(`check_vars`), combined with the scan traversal modelled from the spec:
a variable must resolve to a binding; resolving to any other value is the
error `Unknown` "remaining free variable"; resolving to nothing is
`IdentifierNotInScope`. -/
def scan_vars : Nat → Env → TExpr → Except Err Unit
  | 0, _, _ => .error ⟨.unknown, "recursion limit"⟩
  | fuel + 1, env, .mk _ e =>
    match e with
    | .prim _ => .ok ()
    | .binding _ => .ok ()
    | .var n =>
        match lookupEnv env n with
        | none => .error ⟨.identifierNotInScope, ""⟩
        | some (.mk _ (.binding _)) => .ok ()
        | some _ => .error ⟨.unknown, "remaining free variable"⟩
    | .uri segs =>
        segs.forM (fun sg =>
          match sg with
          | .literal _ => .ok ()
          | .varSeg (.mk _ v) => scan_vars fuel env v)
    | .obj props =>
        props.forM (fun p =>
          match p with
          | .mk _ v => scan_vars fuel env v)
    | .arr item => scan_vars fuel env item
    | .op _ es => es.forM (scan_vars fuel env)
    | .rel u xfers => do
        scan_vars fuel env u
        xfers.forM (fun mt =>
          match mt with
          | (_, none) => .ok ()
          | (_, some (.mk dom rng)) => do
              (match dom with
               | none => .ok ()
               | some d => scan_vars fuel env d)
              scan_vars fuel env rng)
    | .content sch _ => scan_vars fuel env sch
    | .lam bs body => scan_vars fuel (lamFrame bs :: env) body
    | .app h args => do
        scan_vars fuel env h
        args.forM (scan_vars fuel env)

/-- Modelled from the spec: scanning a whole program for free variables. -/
def scanProg (fuel : Nat) (stmts : List Stmt) : Except Err Unit :=
  do
  let _ ← stmts.foldlM
    (fun (env : Env) st =>
      match st with
      | .decl n e => do
          scan_vars fuel env e
          .ok (bindEnv env n e))
    [[]]
  .ok ()

/-- Modelled from the spec: the compilation pipeline exercised by the
reduction test: tagging, constraining, unification, substitution,
reduction and the free-variable check, in that order. -/
def pipeline (stmts : List Stmt) : Except Err (List Stmt) := do
  let tagged ← tagProg 64 stmts
  let cs ← constrainProg 64 tagged
  let s ← unify cs
  let substd ← substProg 64 s tagged
  let reduced ← reduceProg 64 substd
  scanProg 64 reduced
  .ok reduced

/-- Modelled from the spec: tagging, constraining and unification only
(the inference prefix of the pipeline). -/
def inferProgram (stmts : List Stmt) : Except Err Subst := do
  let tagged ← tagProg 64 stmts
  let cs ← constrainProg 64 tagged
  unify cs

/-- Build an untagged node (the placeholder tag is overwritten by the
tagging pass). -/
def uv (e : Expr) : TExpr := .mk (.var 0) e

/-- Modelled from the spec: the abstract syntax of the program
`let b = str; let g x = b; let b = bool; let f x = x | num | g x;
let a = f bool;` obtained by the grammar of spec section 6.1 and the
lowering of section 4.D (the parser is not part of the provided
sources); operator chains lower to one variadic operation. -/
def exampleProgram : List Stmt :=
  [ .decl "b" (uv (.prim .str)),
    .decl "g" (uv (.lam [uv (.binding "x")] (uv (.var "b")))),
    .decl "b" (uv (.prim .bool)),
    .decl "f" (uv (.lam [uv (.binding "x")]
      (uv (.op .sum
        [uv (.var "x"), uv (.prim .num),
         uv (.app (uv (.var "g")) [uv (.var "x")])])))),
    .decl "a" (uv (.app (uv (.var "f")) [uv (.prim .bool)])) ]

/-- Modelled from the spec: the abstract syntax of `let a = num | \x7b\x7d`. -/
def sumMismatchProgram : List Stmt :=
  [ .decl "a" (uv (.op .sum [uv (.prim .num), uv (.obj [])])) ]

/-- Summarize a declaration whose value is a variadic operation: its name,
its operator, and for each operand the primitive it holds (if any). -/
def declSummary : Stmt → Option (String × Operator × List (Option Primitive))
  | .decl n (.mk _ (.op o es)) =>
      some (n, o, es.map (fun x =>
        match x with
        | .mk _ (.prim p) => some p
        | _ => none))
  | _ => none

/-- A half-open character range within the input (spec section 3, Span). -/
structure Span where
  start : Nat
  stop : Nat
deriving DecidableEq, Repr

/-- The value carried by a token: nothing, raw text, or an interned
symbol.  Modelled from the spec: the concrete lexeme type lives in the
lexer module, which is not part of the provided sources. -/
inductive TokVal where
  | nothing
  | text (s : String)
  | sym (n : Nat)
deriving DecidableEq, Repr

/-- A token: a kind, a value and a trivia flag (spec section 3, Token). -/
structure Tok where
  kind : Nat
  val : TokVal
  trivia : Bool
deriving DecidableEq, Repr

/-- `TokenList` from src/oal-model/src/lexicon.rs: the token arena plus the
string interner.  The generational arena is modelled as a list indexed by
position, and the interner dictionary as the list of interned strings in
issue order. -/
structure TokenList where
  list : List (Tok × Span)
  dict : List String
deriving DecidableEq, Repr

/-- Modelled from the spec: look a string up in the interner dictionary,
returning its symbol when already interned. -/
def get_or_intern_idx : List String → String → Option Nat
  | [], _ => none
  | x :: rest, s =>
      if x = s then some 0
      else (get_or_intern_idx rest s).map (fun i => i + 1)

/-- Modelled from the spec: `get_or_intern` of the interner dictionary:
return the existing symbol, or issue the next one (spec section 4.A). -/
def registerDict (d : List String) (s : String) : Nat × List String :=
  match get_or_intern_idx d s with
  | some i => (i, d)
  | none => (d.length, d ++ [s])

/-- `Interner::register` for `TokenList` from src/oal-model/src/lexicon.rs. -/
def register (tl : TokenList) (s : String) : Nat × TokenList :=
  let r := registerDict tl.dict s
  (r.1, { tl with dict := r.2 })

/-- `Interner::resolve` for `TokenList` from src/oal-model/src/lexicon.rs;
the Rust code unwraps, the embedding keeps the option to express that the
lookup does not fail. -/
def resolve (tl : TokenList) (sym : Nat) : Option String :=
  tl.dict.get? sym

/-- Modelled from the spec: `Lexeme::internalize` interns the textual value
of a token, leaving other values unchanged (spec section 9, two-pass
tokenization; the lexeme implementation is not part of the provided
sources). -/
def internalizeTok (t : Tok) (d : List String) : Tok × List String :=
  match t.val with
  | .text s =>
      let r := registerDict d s
      ({ t with val := .sym r.1 }, r.2)
  | _ => (t, d)

/-- The tokenizer error (`Simple<char, Span>`), modelled by its span and
expectation message. -/
structure ParserError where
  span : Span
  expected : String
deriving DecidableEq, Repr

/-- `tokenize` from src/oal-model/src/lexicon.rs.  The chumsky lexer is an
external parameter; its `parse_recovery` output (the optional token
vector and the error list) is taken as input.  On any lexer error the
first one is returned; otherwise each token is internalized and pushed
onto the token list in order. -/
def tokenize (tokens : Option (List (Tok × Span))) (errs : List ParserError) :
    Except ParserError TokenList :=
  match errs with
  | e :: _ => .error e
  | [] =>
      .ok (match tokens with
        | some ts => ts.foldl
            (fun tl p =>
              let r := internalizeTok p.1 tl.dict
              { list := tl.list ++ [(r.1, p.2)], dict := r.2 })
            ⟨[], []⟩
        | none => ⟨[], []⟩)

/-- The claim-side description of tokenization: every token is internalized
in order, threading the interner dictionary left to right. -/
def internedSeq (d : List String) :
    List (Tok × Span) → List (Tok × Span) × List String
  | [] => ([], d)
  | p :: rest =>
      let r := internalizeTok p.1 d
      let q := internedSeq r.2 rest
      ((r.1, p.2) :: q.1, q.2)

/-- `TokenList::len` from src/oal-model/src/lexicon.rs: one past the end
offset of the span of the last stored token, or zero when empty. -/
def TokenList.len (tl : TokenList) : Nat :=
  match tl.list.getLast? with
  | none => 0
  | some p => p.2.stop + 1

/-- `TokenList::is_empty` from src/oal-model/src/lexicon.rs. -/
def TokenList.is_empty (tl : TokenList) : Bool :=
  tl.len == 0

/-- `TokenList::push` from src/oal-model/src/lexicon.rs. -/
def TokenList.push (tl : TokenList) (p : Tok × Span) : TokenList :=
  { tl with list := tl.list ++ [p] }

/-- `TokenList::stream` from src/oal-model/src/lexicon.rs: iterate the
arena with indices, drop trivia, and replace each token by the alias of
its kind and index, keeping the span. -/
def TokenList.stream (tl : TokenList) : List ((Nat × Nat) × Span) :=
  tl.list.enum.filterMap (fun q =>
    if q.2.1.trivia then none else some ((q.2.1.kind, q.1), q.2.2))

mutual

/-- Modelled from the spec: an evaluated IR schema (`eval::Schema`): an
expression plus an optional description (the eval module is not part of
the provided sources; the shape follows its use in
src/oal-codegen/src/lib.rs). -/
inductive ESchema where
  | mk (expr : EExpr) (desc : Option String)

/-- Modelled from the spec: evaluated IR expressions as consumed by the
emitter (`eval::Expr`). -/
inductive EExpr where
  | prim (p : Primitive)
  | rel (uriSpec : List EUriSegment)
  | uri (spec : List EUriSegment)
  | obj (props : List EProp)
  | arr (item : ESchema)
  | op (o : Operator) (schemas : List ESchema)

/-- Modelled from the spec: an evaluated URI segment. -/
inductive EUriSegment where
  | literal (s : String)
  | varSeg (name : String) (schema : ESchema)

/-- Modelled from the spec: an evaluated named property. -/
inductive EProp where
  | mk (name : String) (schema : ESchema)

end

mutual

/-- The OpenAPI schema object as built by the emitter: description,
example, and a schema kind (only the fields the emitter sets are
modelled). -/
inductive OpenSchema where
  | mk (description : Option String) (ex : Option String)
      (kind : OpenSchemaKind)

/-- The OpenAPI schema kind: a concrete type, or an allOf / oneOf / anyOf
combination. -/
inductive OpenSchemaKind where
  | typ (t : OpenType)
  | allOf (xs : List OpenSchema)
  | oneOf (xs : List OpenSchema)
  | anyOf (xs : List OpenSchema)

/-- The OpenAPI concrete types used by the emitter. -/
inductive OpenType where
  | number
  | boolean
  | string (format : Option String)
  | objectT (props : List (String × OpenSchema))
  | arrayT (items : Option OpenSchema)

end

/-- The schema of an evaluated property. -/
def EProp.schemaOf : EProp → ESchema
  | .mk _ s => s

/-- The name of an evaluated property. -/
def EProp.nameOf : EProp → String
  | .mk n _ => n

/-- Modelled from the spec: the URI pattern string of section 4.L: each
literal segment prints as itself, each variable as its braced name. -/
def uriPattern (segs : List EUriSegment) : String :=
  segs.foldl
    (fun acc s =>
      acc ++ "/" ++
        (match s with
         | .literal l => l
         | .varSeg n _ => "\x7b" ++ n ++ "\x7d"))
    ""

/-- `Builder::prim_type` from src/oal-codegen/src/lib.rs. -/
def prim_type : Primitive → OpenType
  | .num => .number
  | .str => .string none
  | .bool => .boolean

/-- `Builder::uri_schema` from src/oal-codegen/src/lib.rs: a string schema
with format uri-reference, carrying the pattern as example when the
segment list is not empty. -/
def uri_schema (segs : List EUriSegment) : OpenSchema :=
  .mk none (if segs.isEmpty then none else some (uriPattern segs))
    (.typ (.string (some "uri-reference")))

/-- `Builder::schema` from src/oal-codegen/src/lib.rs: translate an
evaluated schema to an OpenAPI schema; joins become allOf, sums oneOf,
anys anyOf, objects and arrays translate their children, and the
description is copied onto the result. -/
def buildSchema (s : ESchema) : OpenSchema :=
  match s with
  | .mk e d =>
    match e with
    | .prim p => .mk d none (.typ (prim_type p))
    | .rel us =>
        .mk d (if us.isEmpty then none else some (uriPattern us))
          (.typ (.string (some "uri-reference")))
    | .uri us =>
        .mk d (if us.isEmpty then none else some (uriPattern us))
          (.typ (.string (some "uri-reference")))
    | .obj props =>
        .mk d none (.typ (.objectT (props.attach.map
          (fun q => (q.1.nameOf, buildSchema q.1.schemaOf)))))
    | .arr item => .mk d none (.typ (.arrayT (some (buildSchema item))))
    | .op .join ss =>
        .mk d none (.allOf (ss.attach.map (fun q => buildSchema q.1)))
    | .op .sum ss =>
        .mk d none (.oneOf (ss.attach.map (fun q => buildSchema q.1)))
    | .op .any ss =>
        .mk d none (.anyOf (ss.attach.map (fun q => buildSchema q.1)))
termination_by sizeOf s
decreasing_by
  all_goals simp_wf
  all_goals first
    | omega
    | (have h1 := List.sizeOf_lt_of_mem q.2
       obtain ⟨⟨n, sch⟩, hq⟩ := q
       simp only [EProp.mk.sizeOf_spec, EProp.schemaOf] at h1 ⊢
       omega)

/-- The one-level tag view of a node: exactly the data the type-check pass
inspects (constructor kind, operand tags, transfer tags, URI variable
tags, array item tag, object property tags). -/
inductive TagView where
  | op (o : Operator) (tags : List Tag)
  | rel (u : Tag) (xf : List (Option (Option Tag × Tag)))
  | uri (segs : List (Option Tag))
  | arr (t : Tag)
  | obj (tags : List Tag)
  | other
deriving DecidableEq, Repr

/-- Extract from a node the tags reachable by the type-check pass. -/
def nodeView : NodeRef → TagView
  | .expr (.mk _ e) =>
    match e with
    | .op o exprs => .op o (exprs.map unwrap_tag)
    | .rel u xfers =>
        .rel (unwrap_tag u)
          (xfers.map (fun mt => mt.2.map (fun t =>
            (t.domain.map unwrap_tag, unwrap_tag t.range))))
    | .uri segs =>
        .uri (segs.map (fun s =>
          match s with
          | .literal _ => none
          | .varSeg p => some (unwrap_tag p.val)))
    | .arr item => .arr (unwrap_tag item)
    | .obj props => .obj (props.map (fun p => unwrap_tag p.val))
    | _ => .other
  | _ => .other

/-- The type check expressed as a function of the tag view alone. -/
def viewCheck : TagView → Except Err Unit
  | .op .join tags =>
      if tags.all (fun t => t == Tag.object) then .ok ()
      else .error ⟨.invalidTypes, "ill-formed join"⟩
  | .op _ tags =>
      if tags.all Tag.is_schema then .ok ()
      else .error ⟨.invalidTypes, "ill-formed alternative"⟩
  | .rel u xf =>
      if (u == Tag.uri) && xf.all (fun ot =>
          match ot with
          | some dr =>
              (match dr.1 with
               | some d => d == Tag.content
               | none => true) && (dr.2 == Tag.content)
          | none => true) then .ok ()
      else .error ⟨.invalidTypes, "ill-formed relation"⟩
  | .uri segs =>
      if segs.all (fun s =>
          match s with
          | some t => t == Tag.primitive
          | none => true) then .ok ()
      else .error ⟨.invalidTypes, "ill-formed URI"⟩
  | .arr t =>
      if t.is_schema then .ok ()
      else .error ⟨.invalidTypes, "ill-formed array"⟩
  | .obj tags =>
      if tags.all Tag.is_schema then .ok ()
      else .error ⟨.invalidTypes, "ill-formed object"⟩
  | .other => .ok ()

theorem all_beq_object_iff (exprs : List TExpr) :
    (exprs.all (fun e => unwrap_tag e == Tag.object)) = true ↔
      ∀ e ∈ exprs, unwrap_tag e = Tag.object := by
  simp [List.all_eq_true]

/-- C3: for every reduced Join operation the post-reduction type check
succeeds exactly when every operand tag equals Object, and otherwise
fails with InvalidTypes and the message "ill-formed join". -/
theorem join_check_iff_all_object :
    ∀ exprs : List TExpr,
      (op_type_check .join exprs = .ok () ↔
        ∀ e ∈ exprs, unwrap_tag e = Tag.object) ∧
      ((¬ ∀ e ∈ exprs, unwrap_tag e = Tag.object) →
        op_type_check .join exprs =
          .error ⟨.invalidTypes, "ill-formed join"⟩) := by
  intro exprs
  by_cases hb : (exprs.all (fun e => unwrap_tag e == Tag.object)) = true
  · refine ⟨⟨fun _ => (all_beq_object_iff exprs).mp hb, fun _ => ?_⟩,
      fun hc => absurd ((all_beq_object_iff exprs).mp hb) hc⟩
    simp [op_type_check, hb]
  · have hneg : ¬ ∀ e ∈ exprs, unwrap_tag e = Tag.object :=
      fun h => hb ((all_beq_object_iff exprs).mpr h)
    refine ⟨⟨fun h => ?_, fun h => absurd h hneg⟩, fun _ => ?_⟩
    · rw [Bool.not_eq_true] at hb
      simp [op_type_check, hb] at h
    · rw [Bool.not_eq_true] at hb
      simp [op_type_check, hb]

/-- C3 witness: the theorem applied to a join whose only operand has a
primitive tag, a failing input, and to a join of two object-tagged
operands, a succeeding one. -/
theorem join_check_iff_all_object_witness :
    op_type_check .join [TExpr.mk Tag.primitive (Expr.prim .num)] =
      .error ⟨.invalidTypes, "ill-formed join"⟩ ∧
    op_type_check .join [TExpr.mk Tag.object (Expr.obj [])] = .ok () := by
  constructor
  · refine (join_check_iff_all_object
      [TExpr.mk Tag.primitive (Expr.prim .num)]).2 ?_
    intro hc
    have h2 := hc (TExpr.mk Tag.primitive (Expr.prim .num)) (by simp)
    simp [unwrap_tag] at h2
  · refine (join_check_iff_all_object _).1.mpr ?_
    intro e he
    simp at he
    subst he
    simp [unwrap_tag]

theorem uri_all_iff (spec : List UriSeg) :
    (spec.all (fun s =>
      match s with
      | .varSeg p => unwrap_tag p.val == Tag.primitive
      | .literal _ => true)) = true ↔
    ∀ s ∈ spec, ∀ p, s = UriSeg.varSeg p → unwrap_tag p.val = Tag.primitive := by
  rw [List.all_eq_true]
  constructor
  · intro h s hs p hp
    have h2 := h s hs
    subst hp
    simpa using h2
  · intro h s hs
    cases s with
    | literal l => simp
    | varSeg p => simpa using h _ hs p rfl

/-- C4: for every reduced Uri expression the post-reduction type check
succeeds exactly when the value of every Variable segment has tag Primitive
(Literal segments impose no condition), and otherwise fails with
InvalidTypes and the message "ill-formed URI". -/
theorem uri_check_iff_vars_primitive :
    ∀ spec : List UriSeg,
      (uri_type_check spec = .ok () ↔
        ∀ s ∈ spec, ∀ p, s = UriSeg.varSeg p →
          unwrap_tag p.val = Tag.primitive) ∧
      ((¬ ∀ s ∈ spec, ∀ p, s = UriSeg.varSeg p →
          unwrap_tag p.val = Tag.primitive) →
        uri_type_check spec = .error ⟨.invalidTypes, "ill-formed URI"⟩) := by
  intro spec
  by_cases hb : (spec.all (fun s =>
      match s with
      | .varSeg p => unwrap_tag p.val == Tag.primitive
      | .literal _ => true)) = true
  · refine ⟨⟨fun _ => (uri_all_iff spec).mp hb, fun _ => ?_⟩,
      fun hc => absurd ((uri_all_iff spec).mp hb) hc⟩
    simp [uri_type_check, hb]
  · have hneg := fun h => hb ((uri_all_iff spec).mpr h)
    refine ⟨⟨fun h => ?_, fun h => absurd h hneg⟩, fun _ => ?_⟩
    · rw [Bool.not_eq_true] at hb
      simp [uri_type_check, hb] at h
    · rw [Bool.not_eq_true] at hb
      simp [uri_type_check, hb]

/-- C4 witness: a URI whose variable holds an object-tagged value fails the
check with "ill-formed URI"; a URI of a literal and a primitive-tagged
variable passes. -/
theorem uri_check_iff_vars_primitive_witness :
    uri_type_check
      [UriSeg.varSeg (Property.mk "id" (TExpr.mk Tag.object (Expr.obj [])))] =
      .error ⟨.invalidTypes, "ill-formed URI"⟩ ∧
    uri_type_check
      [UriSeg.literal "items",
       UriSeg.varSeg (Property.mk "id"
         (TExpr.mk Tag.primitive (Expr.prim .num)))] = .ok () := by
  constructor
  · refine (uri_check_iff_vars_primitive _).2 ?_
    intro hc
    have h2 := hc _ (by simp) (Property.mk "id" (TExpr.mk Tag.object (Expr.obj []))) rfl
    simp [unwrap_tag, Property.val] at h2
  · refine (uri_check_iff_vars_primitive _).1.mpr ?_
    intro s hs p hp
    subst hp
    simp at hs
    subst hs
    simp [unwrap_tag, Property.val]

/-- C1 counterexample: a reduced Sum whose two operands carry the distinct
schema-kind tags Primitive and Object (exactly the operand tags of
`num | \x7b\x7d`) passes the post-reduction type check, so the check does
not require the operand tags to be mutually equal. -/
theorem sum_check_ignores_tag_equality :
    op_type_check .sum
      [TExpr.mk Tag.primitive (Expr.prim .num),
       TExpr.mk Tag.object (Expr.obj [])] = .ok () ∧
    unwrap_tag (TExpr.mk Tag.primitive (Expr.prim .num)) ≠
      unwrap_tag (TExpr.mk Tag.object (Expr.obj [])) := by
  exact ⟨rfl, by simp [unwrap_tag]⟩

theorem all_schema_iff (exprs : List TExpr) :
    (exprs.all (fun e => (unwrap_tag e).is_schema)) = true ↔
      ∀ e ∈ exprs, (unwrap_tag e).is_schema = true := by
  simp [List.all_eq_true]

/-- C1 (amended): for every reduced Sum or Any operation the post-reduction
type check succeeds exactly when every operand tag is a schema kind
(mutual equality of the operand tags is not re-checked there; it is
enforced earlier, during unification), and otherwise fails with
InvalidTypes and the message "ill-formed alternative"; the program
`let a = num | \x7b\x7d` is rejected by unification with InvalidTypes. -/
theorem alternative_check_iff_all_schema :
    (∀ (o : Operator) (exprs : List TExpr), (o = .sum ∨ o = .any) →
      (op_type_check o exprs = .ok () ↔
        ∀ e ∈ exprs, (unwrap_tag e).is_schema = true) ∧
      ((¬ ∀ e ∈ exprs, (unwrap_tag e).is_schema = true) →
        op_type_check o exprs =
          .error ⟨.invalidTypes, "ill-formed alternative"⟩)) ∧
    inferProgram sumMismatchProgram = .error ⟨.invalidTypes, "type mismatch"⟩ := by
  constructor
  · intro o exprs ho
    by_cases hb : (exprs.all (fun e => (unwrap_tag e).is_schema)) = true
    · refine ⟨⟨fun _ => (all_schema_iff exprs).mp hb, fun _ => ?_⟩,
        fun hc => absurd ((all_schema_iff exprs).mp hb) hc⟩
      rcases ho with h | h <;> subst h <;> simp [op_type_check, hb]
    · have hneg := fun h => hb ((all_schema_iff exprs).mpr h)
      refine ⟨⟨fun h => ?_, fun h => absurd h hneg⟩, fun _ => ?_⟩
      · rw [Bool.not_eq_true] at hb
        rcases ho with h2 | h2 <;> subst h2 <;> simp [op_type_check, hb] at h
      · rw [Bool.not_eq_true] at hb
        rcases ho with h2 | h2 <;> subst h2 <;> simp [op_type_check, hb]
  · rfl

/-- C1 witness: the amended theorem applied to a Sum with a content-tagged
operand, which fails with "ill-formed alternative". -/
theorem alternative_check_iff_all_schema_witness :
    op_type_check .sum [TExpr.mk Tag.content (Expr.prim .num)] =
      .error ⟨.invalidTypes, "ill-formed alternative"⟩ := by
  refine (alternative_check_iff_all_schema.1 .sum
    [TExpr.mk Tag.content (Expr.prim .num)] (Or.inl rfl)).2 ?_
  intro hc
  have h2 := hc (TExpr.mk Tag.content (Expr.prim .num)) (by simp)
  simp [unwrap_tag, Tag.is_schema] at h2

/-- C2: the full modelled pipeline (tagging, constraining, unification,
substitution, reduction, free-variable check) accepts the shadowing
program `let b = str; let g x = b; let b = bool; let f x = x | num | g x;
let a = f bool;`, and its fifth declaration binds `a` to the Sum
operation over exactly the primitives Bool, Num, Str in that order. -/
theorem compile_application_reduces :
    (pipeline exampleProgram).isOk = true ∧
    ((pipeline exampleProgram).toOption.bind (fun ss => ss.get? 4)).bind
        declSummary =
      some ("a", Operator.sum,
        [some Primitive.bool, some Primitive.num, some Primitive.str]) := by
  exact ⟨rfl, rfl⟩

theorem all_map_general {A : Type} {B : Type} (l : List A) (f : A → B)
    (p : B → Bool) :
    (l.map f).all p = l.all (fun a => p (f a)) := by
  induction l with
  | nil => rfl
  | cons x rest ih => simp [List.all_cons, ih]

theorem type_check_eq_viewCheck :
    ∀ (acc : Unit) (env : Env) (n : NodeRef),
      type_check acc env n = (acc, env, viewCheck (nodeView n)) := by
  intro acc env n
  cases n with
  | stmt s => rfl
  | expr e =>
    rcases e with ⟨t, e⟩
    cases e with
    | prim p => rfl
    | var v => rfl
    | binding b => rfl
    | lam bs body => rfl
    | app h args => rfl
    | content sch d => rfl
    | arr item => rfl
    | op o exprs =>
        cases o <;>
          simp [type_check, nodeView, viewCheck, op_type_check, List.all_map,
            Function.comp]
    | obj props =>
        simp [type_check, nodeView, viewCheck, object_type_check, List.all_map,
          Function.comp]
    | uri segs =>
        have hfun : (fun s : UriSeg =>
            match s with
            | .varSeg p => unwrap_tag p.val == Tag.primitive
            | .literal _ => true) =
          ((fun s : Option Tag =>
            match s with
            | some t2 => t2 == Tag.primitive
            | none => true) ∘ (fun s : UriSeg =>
            match s with
            | .literal _ => none
            | .varSeg p => some (unwrap_tag p.val))) := by
          funext s
          cases s <;> rfl
        simp [type_check, nodeView, viewCheck, uri_type_check, List.all_map,
          hfun]
    | rel u xfers =>
        have hfun : (fun mt : Method × Option Transfer =>
            match mt.2 with
            | some t2 =>
                (match t2.domain with
                 | some d => unwrap_tag d == Tag.content
                 | none => true) && (unwrap_tag t2.range == Tag.content)
            | none => true) =
          (fun mt : Method × Option Transfer =>
            (fun ot : Option (Option Tag × Tag) =>
              match ot with
              | some dr =>
                  (match dr.1 with
                   | some d => d == Tag.content
                   | none => true) && (dr.2 == Tag.content)
              | none => true)
            (mt.2.map (fun t2 =>
              (t2.domain.map unwrap_tag, unwrap_tag t2.range)))) := by
          funext mt
          rcases mt with ⟨m, tr⟩
          cases tr with
          | none => rfl
          | some t2 =>
              rcases t2 with ⟨dom, rng⟩
              cases dom <;> rfl
        have hall : (xfers.all (fun mt : Method × Option Transfer =>
            match mt.2 with
            | some t2 =>
                (match t2.domain with
                 | some d => unwrap_tag d == Tag.content
                 | none => true) && (unwrap_tag t2.range == Tag.content)
            | none => true)) =
          ((xfers.map (fun mt : Method × Option Transfer =>
              mt.2.map (fun t2 =>
                (t2.domain.map unwrap_tag, unwrap_tag t2.range)))).all
            (fun ot : Option (Option Tag × Tag) =>
              match ot with
              | some dr =>
                  (match dr.1 with
                   | some d => d == Tag.content
                   | none => true) && (dr.2 == Tag.content)
              | none => true)) := by
          rw [all_map_general]
          exact congrArg (List.all xfers) hfun
        simp only [type_check, nodeView, viewCheck, rel_type_check]
        rw [hall]

/-- C9: the type-check pass is read-only: it returns the accumulator and
the environment unchanged, and its verdict is a function of the tags
reachable from the visited node alone (its tag view), so two nodes with
the same tag view receive the same verdict. -/
theorem type_check_readonly_tag_determined :
    ∀ (acc : Unit) (env : Env) (node : NodeRef)
      (acc2 : Unit) (env2 : Env) (node2 : NodeRef),
      type_check acc env node = (acc, env, viewCheck (nodeView node)) ∧
      (nodeView node = nodeView node2 →
        (type_check acc env node).2.2 = (type_check acc2 env2 node2).2.2) := by
  intro acc env node acc2 env2 node2
  refine ⟨type_check_eq_viewCheck acc env node, fun h => ?_⟩
  rw [type_check_eq_viewCheck, type_check_eq_viewCheck, h]

/-- C9 witness: the theorem applied to two join nodes that differ in their
own tag and environment but share the tag view: same verdict, state
returned unchanged. -/
theorem type_check_readonly_tag_determined_witness :
    type_check () [] (.expr (.mk Tag.primitive (.op .join []))) =
      ((), [],
        viewCheck (nodeView (.expr (.mk Tag.primitive (.op .join []))))) ∧
    (type_check () [] (.expr (.mk Tag.primitive (.op .join [])))).2.2 =
      (type_check () [[]] (.expr (.mk Tag.object (.op .join [])))).2.2 := by
  have h := type_check_readonly_tag_determined () []
    (.expr (.mk Tag.primitive (.op .join [])))
    () [[]] (.expr (.mk Tag.object (.op .join [])))
  exact ⟨h.1, h.2 rfl⟩

/-- C8: the emitter maps Join to an allOf schema, Sum to a oneOf schema and
Any to an anyOf schema, translating the operand schemas in order and
copying the description onto the result. -/
theorem emitter_op_translation :
    ∀ (ss : List ESchema) (d : Option String),
      buildSchema (.mk (.op .join ss) d) =
        .mk d none (.allOf (ss.map buildSchema)) ∧
      buildSchema (.mk (.op .sum ss) d) =
        .mk d none (.oneOf (ss.map buildSchema)) ∧
      buildSchema (.mk (.op .any ss) d) =
        .mk d none (.anyOf (ss.map buildSchema)) := by
  intro ss d
  refine ⟨?_, ?_, ?_⟩ <;>
    · rw [buildSchema]
      rw [List.attach_map_val]

/-- C10: the length of a token list is one plus the end offset of the last
span of the last stored token (0 when the list is empty) — a value derived from
character positions, not the number of stored tokens — and is_empty holds
exactly when the length is 0. -/
theorem token_list_len_last_span :
    ∀ tl : TokenList,
      (tl.list = [] → tl.len = 0) ∧
      (∀ pre t sp, tl.list = pre ++ [(t, sp)] → tl.len = sp.stop + 1) ∧
      (tl.is_empty = true ↔ tl.len = 0) ∧
      (TokenList.len ⟨[(⟨0, .nothing, false⟩, ⟨0, 8⟩)], []⟩ = 9 ∧
        (TokenList.mk [(⟨0, .nothing, false⟩, ⟨0, 8⟩)] []).list.length = 1) := by
  intro tl
  refine ⟨fun h => ?_, fun pre t sp h => ?_, ?_, by exact ⟨rfl, rfl⟩⟩
  · simp [TokenList.len, h]
  · simp [TokenList.len, h, List.getLast?_concat]
  · simp [TokenList.is_empty]

/-- C10 witness: the theorem applied to a one-token list whose span ends at
offset 7: the length is 8, not the token count. -/
theorem token_list_len_last_span_witness :
    TokenList.len ⟨[(⟨0, .nothing, false⟩, ⟨2, 7⟩)], []⟩ = 8 := by
  exact (token_list_len_last_span ⟨[(⟨0, .nothing, false⟩, ⟨2, 7⟩)], []⟩).2.1
    [] ⟨0, .nothing, false⟩ ⟨2, 7⟩ rfl

theorem get_or_intern_idx_get (d : List String) (s : String) :
    ∀ i, get_or_intern_idx d s = some i → d[i]? = some s := by
  induction d with
  | nil => intro i h; simp [get_or_intern_idx] at h
  | cons x rest ih =>
      intro i h
      by_cases hx : x = s
      · simp [get_or_intern_idx, hx] at h
        subst h
        simp [hx]
      · simp [get_or_intern_idx, hx] at h
        obtain ⟨i0, h1, h2⟩ := h
        subst h2
        simpa using ih i0 h1

theorem get_or_intern_idx_append_self (d : List String) (s : String) :
    get_or_intern_idx d s = none →
      get_or_intern_idx (d ++ [s]) s = some d.length := by
  induction d with
  | nil => intro _; simp [get_or_intern_idx]
  | cons x rest ih =>
      intro h
      by_cases hx : x = s
      · simp [get_or_intern_idx, hx] at h
      · simp [get_or_intern_idx, hx] at h ⊢
        simp [ih h]

/-- C7: registering a string and resolving the returned symbol yields the
string back without failure, and registering a textually equal string
again returns the same symbol (interning deduplicates). -/
theorem interner_register_resolve :
    ∀ (tl : TokenList) (s : String),
      resolve (register tl s).2 (register tl s).1 = some s ∧
      (register (register tl s).2 s).1 = (register tl s).1 := by
  intro tl s
  cases h : get_or_intern_idx tl.dict s with
  | some i =>
      constructor
      · simp [register, registerDict, resolve, h]
        exact get_or_intern_idx_get tl.dict s i h
      · simp [register, registerDict, h]
  | none =>
      constructor
      · simp [register, registerDict, resolve, h]
      · simp [register, registerDict, h,
          get_or_intern_idx_append_self tl.dict s h]

theorem tokenize_foldl_interned (ts : List (Tok × Span)) :
    ∀ (l : List (Tok × Span)) (d : List String),
      ts.foldl
        (fun tl p =>
          ({ list := tl.list ++ [((internalizeTok p.1 tl.dict).1, p.2)],
             dict := (internalizeTok p.1 tl.dict).2 } : TokenList))
        (⟨l, d⟩ : TokenList) =
      ⟨l ++ (internedSeq d ts).1, (internedSeq d ts).2⟩ := by
  induction ts with
  | nil => intro l d; simp [internedSeq]
  | cons p rest ih =>
      intro l d
      simp only [List.foldl_cons]
      rw [ih]
      simp [internedSeq]

/-- C5: tokenize fails exactly when the lexer reported at least one error,
returning the first reported error with no token list; on success every
lexed token is internalized and stored in the token list in order,
threading the interner dictionary left to right. -/
theorem tokenize_first_error_or_interned :
    ∀ (tokens : Option (List (Tok × Span))) (errs : List ParserError),
      ((tokenize tokens errs).isOk = true ↔ errs = []) ∧
      (∀ e rest, errs = e :: rest → tokenize tokens errs = .error e) ∧
      (∀ ts, errs = [] → tokens = some ts →
        tokenize tokens errs =
          .ok ⟨(internedSeq [] ts).1, (internedSeq [] ts).2⟩) := by
  intro tokens errs
  cases errs with
  | nil =>
      refine ⟨by simp [tokenize, Except.isOk, Except.toBool],
        fun e rest h => by simp at h, fun ts _ hts => ?_⟩
      subst hts
      simp only [tokenize]
      rw [tokenize_foldl_interned ts [] []]
      simp
  | cons e rest =>
      refine ⟨by simp [tokenize, Except.isOk, Except.toBool],
        fun e2 rest2 h => ?_, fun ts h _ => by simp at h⟩
      injection h with h1 h2
      subst h1
      rfl

/-- C5 witness: the theorem applied to a one-error lexer outcome (the first
error is returned) and to a two-token error-free outcome (both tokens are
internalized and stored in order). -/
theorem tokenize_first_error_or_interned_witness :
    tokenize none [⟨⟨0, 1⟩, "x"⟩, ⟨⟨2, 3⟩, "y"⟩] = .error ⟨⟨0, 1⟩, "x"⟩ ∧
    tokenize (some [(⟨0, .text "a", false⟩, ⟨0, 1⟩),
        (⟨1, .text "a", true⟩, ⟨1, 2⟩)]) [] =
      .ok ⟨[(⟨0, .sym 0, false⟩, ⟨0, 1⟩), (⟨1, .sym 0, true⟩, ⟨1, 2⟩)],
        ["a"]⟩ := by
  constructor
  · exact (tokenize_first_error_or_interned none
      [⟨⟨0, 1⟩, "x"⟩, ⟨⟨2, 3⟩, "y"⟩]).2.1 ⟨⟨0, 1⟩, "x"⟩ [⟨⟨2, 3⟩, "y"⟩] rfl
  · have h := (tokenize_first_error_or_interned
      (some [(⟨0, .text "a", false⟩, ⟨0, 1⟩),
        (⟨1, .text "a", true⟩, ⟨1, 2⟩)]) []).2.2
      [(⟨0, .text "a", false⟩, ⟨0, 1⟩), (⟨1, .text "a", true⟩, ⟨1, 2⟩)]
      rfl rfl
    rw [h]
    rfl

theorem filterMap_stream_eq (l : List (Nat × (Tok × Span))) :
    l.filterMap (fun q =>
      if q.2.1.trivia then none else some ((q.2.1.kind, q.1), q.2.2)) =
    (l.filter (fun q => !q.2.1.trivia)).map
      (fun q => ((q.2.1.kind, q.1), q.2.2)) := by
  induction l with
  | nil => rfl
  | cons x rest ih =>
      by_cases h : x.2.1.trivia <;>
        simp [List.filterMap_cons, List.filter_cons, h, ih]

theorem mem_enumFrom_getElem (l : List (Tok × Span)) :
    ∀ (j i : Nat) (x : Tok × Span),
      (i, x) ∈ l.enumFrom j → j ≤ i ∧ l[i - j]? = some x := by
  induction l with
  | nil => intro j i x h; simp [List.enumFrom] at h
  | cons y rest ih =>
      intro j i x h
      simp only [List.enumFrom, List.mem_cons] at h
      rcases h with h | h
      · injection h with h1 h2
        subst h1
        subst h2
        exact ⟨Nat.le_refl _, by simp⟩
      · have h2 := ih (j + 1) i x h
        refine ⟨by omega, ?_⟩
        have hij : i - j = (i - (j + 1)) + 1 := by omega
        rw [hij]
        simpa using h2.2

/-- C6: the parser stream holds exactly the non-trivia tokens in list
order, each replaced by the alias of its kind and token index paired with
the original span, and each alias points back to a stored non-trivia
token of that kind; the stored token list itself is left untouched. -/
theorem stream_non_trivia_aliases :
    ∀ tl : TokenList,
      tl.stream =
        (tl.list.enum.filter (fun q => !q.2.1.trivia)).map
          (fun q => ((q.2.1.kind, q.1), q.2.2)) ∧
      (∀ k i sp, ((k, i), sp) ∈ tl.stream →
        ∃ t : Tok, tl.list[i]? = some (t, sp) ∧ t.trivia = false ∧
          t.kind = k) := by
  intro tl
  constructor
  · exact filterMap_stream_eq tl.list.enum
  · intro k i sp hmem
    simp only [TokenList.stream] at hmem
    rw [List.mem_filterMap] at hmem
    obtain ⟨q, hq, hf⟩ := hmem
    by_cases ht : q.2.1.trivia
    · simp [ht] at hf
    · simp [ht] at hf
      obtain ⟨⟨hk, hi⟩, hsp⟩ := hf
      rcases q with ⟨qi, qt, qs⟩
      simp only [List.enum] at hq
      have h2 := (mem_enumFrom_getElem tl.list 0 qi (qt, qs) hq).2
      refine ⟨qt, ?_, ?_, ?_⟩
      · simp only at hi hsp
        subst hi
        subst hsp
        simpa using h2
      · simpa using ht
      · simpa using hk

/-- C6 witness: the theorem applied to a token list holding a trivia token
at index 0 and a non-trivia token of kind 5 at index 1: the stream holds
only the alias of index 1, and that alias points back to the stored
token. -/
theorem stream_non_trivia_aliases_witness :
    (TokenList.mk
        [(⟨9, .nothing, true⟩, ⟨0, 1⟩), (⟨5, .nothing, false⟩, ⟨1, 2⟩)]
        []).stream = [((5, 1), ⟨1, 2⟩)] ∧
    ∃ t : Tok,
      (TokenList.mk
        [(⟨9, .nothing, true⟩, ⟨0, 1⟩), (⟨5, .nothing, false⟩, ⟨1, 2⟩)]
        []).list[1]? = some (t, ⟨1, 2⟩) ∧ t.trivia = false ∧ t.kind = 5 := by
  have h := stream_non_trivia_aliases
    (TokenList.mk
      [(⟨9, .nothing, true⟩, ⟨0, 1⟩), (⟨5, .nothing, false⟩, ⟨1, 2⟩)] [])
  exact ⟨rfl, h.2 5 1 ⟨1, 2⟩ (by decide)⟩
